import Mathlib

/-!
Verification development for the go-scripts script-engine library.

The definitions below are a shallow embedding of the Go sources:
the fixed-size engine pool (engine_pool.go), the auto-growing engine
pool, the factory registry (factory.go), the manager (manager.go),
the JavaScript engine (javascript/javascript_engine.go) and the Lua
engine (lua/lua_engine.go).  Stateful Go methods become pure Lean
functions from the receiver state to a result paired with the
successor state; channels become lists; opaque collaborators (the
goja runtime, the gopher-lua virtual machine, engine factories)
become function parameters.
-/

namespace GoScripts

/--
Shallow model of an engine instance as handled by the pools.
Mirrors the engines constructed by newLuaEngine and
newJavascriptEngine: a fresh engine carries the initialized flag set
to false; only Init sets it.  The id distinguishes instances.
-/
structure EngineM where
  id : Nat
  initialized : Bool
deriving DecidableEq, Repr

/--
Mirrors newLuaEngine and newJavascriptEngine, the constructors the
factory registry invokes through NewScriptEngine: both return an
engine whose initialized flag is false, and NewScriptEngine itself
never calls Init.
-/
def newEngineM (id : Nat) : EngineM :=
  { id := id, initialized := false }

/--
Mirrors engine.Init of both concrete engines: fails with the
already-initialized error when the flag is set, otherwise allocates
the interpreter and sets the flag.
-/
def engInit (e : EngineM) : Except String EngineM :=
  if e.initialized then .error "already initialized"
  else .ok { e with initialized := true }

/-- Pool-level errors returned by Acquire in both pool flavors. -/
inductive PoolErr where
  | poolClosed
  | factoryFailed
deriving DecidableEq, Repr

/--
Result of one Acquire attempt on the auto-growing pool.
got: taken from the idle queue by the non-blocking receive;
fresh: created on demand (the engine bypasses the queue);
blocked: the caller parks on the blocking receive from the idle
channel (the state is unchanged until a later release or closure);
err: the call returned an error.
-/
inductive AcqRes where
  | got (e : EngineM)
  | fresh (e : EngineM)
  | blocked
  | err (er : PoolErr)
deriving DecidableEq, Repr

/-- What a Release call did with the engine it was handed. -/
inductive RelAct where
  | requeued
  | closedEngine
  | ignoredNil
deriving DecidableEq, Repr

/--
State of AutoGrowEnginePool.  idle models the buffered channel
`pool chan Engine` of capacity max; total and max and closed mirror
the fields of the Go struct.  borrowed is a specification-level
(ghost) counter of the engines Acquire has handed out that have not
yet been returned or discarded; the Go struct has no such field, it
is the quantity the pool invariant speaks about.
-/
structure AutoGrowEnginePool where
  idle : List EngineM
  borrowed : Nat
  total : Nat
  max : Nat
  closed : Bool
deriving DecidableEq, Repr

/--
Mirrors NewAutoGrowEnginePool: rejects maxSize below 1, an
initialSize above maxSize, and an empty type identifier; otherwise
pre-creates initialSize engines through the registered factory
(modelled by newEngineM, matching the registered constructors, which
never fail and never call Init) and loads them into the channel.
-/
def NewAutoGrowEnginePool (initialSize maxSize : Nat) (typ : String) :
    Except String AutoGrowEnginePool :=
  if maxSize < 1 then .error "invalid sizes"
  else if maxSize < initialSize then .error "invalid sizes"
  else if typ = "" then .error "engine type cannot be empty"
  else .ok { idle := (List.range initialSize).map newEngineM
           , borrowed := 0
           , total := initialSize
           , max := maxSize
           , closed := false }

/--
Mirrors AutoGrowEnginePool.Acquire.  The factory argument models the
outcome of NewScriptEngine(p.typ).  The Go method first checks the
closed flag, then attempts a non-blocking receive from the idle
channel, then (under the mutex) creates a fresh engine when total is
below max, incrementing total first and rolling the increment back
when the factory fails, and otherwise falls through to the blocking
receive, modelled by the blocked marker.
-/
def AutoGrowEnginePool.Acquire (p : AutoGrowEnginePool)
    (factory : Except Unit EngineM) : AcqRes × AutoGrowEnginePool :=
  if p.closed then (.err .poolClosed, p)
  else
    match p.idle with
    | e :: rest => (.got e, { p with idle := rest, borrowed := p.borrowed + 1 })
    | [] =>
      if p.total < p.max then
        match factory with
        | .ok e => (.fresh e, { p with total := p.total + 1, borrowed := p.borrowed + 1 })
        | .error _ => (.err .factoryFailed, p)
      else
        (.blocked, p)

/--
Mirrors AutoGrowEnginePool.Release.  A nil engine is ignored.  When
the pool is closed the engine is closed and, as in the Go source,
total is left unchanged.  Otherwise the engine is requeued when the
channel has room (capacity max) and closed with total decremented
(guarded by a positivity test as in the source) when it is full.
The ghost borrowed counter drops whenever a handed-out engine comes
back.
-/
def AutoGrowEnginePool.Release (p : AutoGrowEnginePool) (e : Option EngineM) :
    RelAct × AutoGrowEnginePool :=
  match e with
  | none => (.ignoredNil, p)
  | some eng =>
    if p.closed then
      (.closedEngine, { p with borrowed := p.borrowed - 1 })
    else if p.idle.length < p.max then
      (.requeued, { p with idle := p.idle ++ [eng], borrowed := p.borrowed - 1 })
    else
      (.closedEngine, { p with borrowed := p.borrowed - 1
                             , total := if 0 < p.total then p.total - 1 else p.total })

/--
Mirrors AutoGrowEnginePool.Close: a second Close is a no-op;
otherwise the pool is marked closed, the channel is closed and
drained, and Close is called on every idle engine (returned as the
second component, in drain order).  total is left unchanged.
-/
def AutoGrowEnginePool.Close (p : AutoGrowEnginePool) :
    AutoGrowEnginePool × List EngineM :=
  if p.closed then (p, [])
  else ({ p with closed := true, idle := [] }, p.idle)

/--
The pool invariant of the specification: idle engines plus borrowed
engines account for every created engine, and the created count
never exceeds the configured maximum.
-/
def agInv (p : AutoGrowEnginePool) : Prop :=
  p.idle.length + p.borrowed = p.total ∧ p.total ≤ p.max

instance (p : AutoGrowEnginePool) : Decidable (agInv p) := by
  unfold agInv; infer_instance

/-- Result of one Acquire attempt on the fixed-size pool. -/
inductive FAcqRes where
  | got (e : EngineM)
  | blocked
  | perr (er : PoolErr)
deriving DecidableEq, Repr

/--
State of EnginePool (engine_pool.go): pool models the buffered
channel of capacity size; size and closed mirror the struct fields.
-/
structure EnginePool where
  pool : List EngineM
  size : Nat
  closed : Bool
deriving DecidableEq, Repr

/--
Outcome of the engine-creation loop of NewEnginePool.  engines is
the list handed to the pool channel on success; closedDuring lists
the engines Close was called on during cleanup, in call order.
-/
structure BuildOut where
  engines : Except String (List EngineM)
  closedDuring : List EngineM
deriving Repr

/--
Mirrors the loop body of NewEnginePool: for each index the factory
is invoked (modelling NewScriptEngine); on factory failure every
already-created engine is closed; otherwise Init is called and on
Init failure the failed engine is closed first, then every
already-created engine.  created accumulates the initialized engines
in creation order.  n counts the remaining iterations.
-/
def buildEngines (factory : Nat → Except String EngineM)
    (initE : EngineM → Except String EngineM) :
    Nat → Nat → List EngineM → BuildOut
  | 0, _, created => { engines := .ok created, closedDuring := [] }
  | n + 1, i, created =>
    match factory i with
    | .error msg => { engines := .error msg, closedDuring := created }
    | .ok eng =>
      match initE eng with
      | .error msg => { engines := .error msg, closedDuring := eng :: created }
      | .ok eng2 => buildEngines factory initE n (i + 1) (created ++ [eng2])

/--
Mirrors NewEnginePool: rejects a size below 1, runs the creation
loop, and on success returns the pool pre-loaded with every engine.
The second component lists the engines closed during cleanup on
failure (empty on success).
-/
def NewEnginePool (size : Nat) (factory : Nat → Except String EngineM)
    (initE : EngineM → Except String EngineM) :
    Except String EnginePool × List EngineM :=
  if size < 1 then (.error "pool size must be at least 1", [])
  else
    match buildEngines factory initE size 0 [] with
    | { engines := .ok engs, closedDuring := _ } =>
      (.ok { pool := engs, size := size, closed := false }, [])
    | { engines := .error msg, closedDuring := cd } => (.error msg, cd)

/--
Mirrors EnginePool.Acquire: fails with the pool-closed error when
the closed flag is set (the closed channel yields the same error to
racers), otherwise takes the engine at the head of the channel or
parks on the blocking receive when it is empty.
-/
def EnginePool.Acquire (p : EnginePool) : FAcqRes × EnginePool :=
  if p.closed then (.perr .poolClosed, p)
  else
    match p.pool with
    | e :: rest => (.got e, { p with pool := rest })
    | [] => (.blocked, p)

/--
Mirrors EnginePool.Release: a nil engine is ignored; when the pool
is closed the engine is closed instead of requeued; otherwise the
engine is sent back when the channel (capacity size) has room and
closed when it is full.
-/
def EnginePool.Release (p : EnginePool) (e : Option EngineM) :
    RelAct × EnginePool :=
  match e with
  | none => (.ignoredNil, p)
  | some eng =>
    if p.closed then (.closedEngine, p)
    else if p.pool.length < p.size then (.requeued, { p with pool := p.pool ++ [eng] })
    else (.closedEngine, p)

/--
Mirrors EnginePool.Close: a second Close is a no-op; otherwise the
pool is marked closed and every idle engine is drained and closed
(returned in drain order).
-/
def EnginePool.Close (p : EnginePool) : EnginePool × List EngineM :=
  if p.closed then (p, [])
  else ({ p with closed := true, pool := [] }, p.pool)

/--
The process-wide factory registry of factory.go, modelled as the map
from type identifiers to registered constructors; a constructor is
identified by an opaque numeric id.
-/
abbrev Factories := String → Option Nat

/--
Mirrors Register of factory.go: fails with the already-registered
error and leaves the map untouched when the type identifier is
bound, otherwise inserts the binding.
-/
def Register (m : Factories) (t : String) (f : Nat) : Option String × Factories :=
  match m t with
  | some _ => (some "script engine factory already registered", m)
  | none => (none, fun u => if u = t then some f else m u)

/-- Mirrors GetFactory of factory.go: lookup with a found flag. -/
def GetFactory (m : Factories) (t : String) : Option Nat :=
  m t

/--
Mirrors Unregister of factory.go: returns true and deletes the
binding exactly when the type identifier is bound.
-/
def Unregister (m : Factories) (t : String) : Bool × Factories :=
  match m t with
  | some _ => (true, fun u => if u = t then none else m u)
  | none => (false, m)

/--
An engine as registered with the Manager, reduced to what CloseAll
observes: an identity and the outcome of its Close call (none for
success).
-/
structure MEngine where
  id : Nat
  closeErr : Option String
deriving DecidableEq, Repr

/-- State of Manager (manager.go): the name-to-engine registry. -/
structure Manager where
  engines : List (String × MEngine)
  defaultName : String
deriving DecidableEq, Repr

/--
Mirrors the cleanup loop of Manager.CloseAll with its lastErr
accumulator: every engine of the list has Close called on it (the
first component records the calls in order) and lastErr is
overwritten by each failing Close.
-/
def closeSeq : Option String → List MEngine → List MEngine × Option String
  | last, [] => ([], last)
  | last, e :: rest =>
    let last2 := match e.closeErr with
      | some er => some er
      | none => last
    let r := closeSeq last2 rest
    (e :: r.1, r.2)

/--
Mirrors Manager.CloseAll: snapshots the registered engines, clears
the registry before any Close is called, then closes every engine of
the snapshot, retaining only the last error.  Returns the cleared
manager, the engines Close was called on in order, and the final
lastErr.
-/
def Manager.CloseAll (m : Manager) : Manager × List MEngine × Option String :=
  ({ m with engines := [] },
    (closeSeq none (m.engines.map Prod.snd)).1,
    (closeSeq none (m.engines.map Prod.snd)).2)

/-- Errors of the JavaScript engine (javascript/errors.go). -/
inductive JErr where
  | notInitialized
  | noProgramLoaded
  | runtimeErr (code : Nat)
deriving DecidableEq, Repr

/--
State of the JavaScript engine (javascript/javascript_engine.go)
as ExecuteLoaded and LoadString observe it: the initialized flag,
the loaded-program list and the last-error slot.  A compiled program
is modelled by the outcome its execution produces on the goja
runtime, an error or an exported value.
-/
structure JsEngine where
  initialized : Bool
  programs : List (Except JErr Int)
  lastError : Option JErr

/-- Mirrors setLastError. -/
def JsEngine.setLastError (e : JsEngine) (er : JErr) : JsEngine :=
  { e with lastError := some er }

/-- Mirrors ClearError. -/
def JsEngine.ClearError (e : JsEngine) : JsEngine :=
  { e with lastError := none }

/--
Mirrors engine.LoadString of the JavaScript engine: fails when the
engine is uninitialized; the compiled argument models the outcome of
goja.Compile (an error, or the compiled program); on compile failure
the error is recorded and the program list is untouched; otherwise
the flag is re-checked under the write lock and the program is
appended to the loaded list, clearing the error slot.
-/
def JsEngine.LoadString (e : JsEngine)
    (compiled : Except JErr (Except JErr Int)) : Option JErr × JsEngine :=
  if !e.initialized then (some .notInitialized, e.setLastError .notInitialized)
  else
    match compiled with
    | .error er => (some er, e.setLastError er)
    | .ok prog =>
      if !e.initialized then (some .notInitialized, e.setLastError .notInitialized)
      else (none, { e with programs := e.programs ++ [prog], lastError := none })

/--
Mirrors the RunProgram loop inside ExecuteLoaded: programs run in
list order, each successful run appends its result, and the first
failing run stops the loop.  Returns the results of the runs that
succeeded together with the error of the failing run, if any.
-/
def runProgsTrace : List (Except JErr Int) → List Int × Option JErr
  | [] => ([], none)
  | p :: rest =>
    match p with
    | .error er => ([], some er)
    | .ok v =>
      let r := runProgsTrace rest
      (v :: r.1, r.2)

/--
Mirrors engine.ExecuteLoaded of the JavaScript engine: fails when
uninitialized, fails with the no-program-loaded error when the
loaded list is empty, otherwise runs the loaded programs in load
order, aborting on the first runtime error and returning the ordered
results on success (clearing the error slot).
-/
def JsEngine.ExecuteLoaded (e : JsEngine) : Except JErr (List Int) × JsEngine :=
  if !e.initialized then (.error .notInitialized, e.setLastError .notInitialized)
  else if e.programs.isEmpty then
    (.error .noProgramLoaded, e.setLastError .noProgramLoaded)
  else
    match runProgsTrace e.programs with
    | (vs, none) => (.ok vs, e.ClearError)
    | (_, some er) => (.error er, e.setLastError er)

/--
State of the Lua engine (lua/lua_engine.go) as ExecuteString
observes it: the initialized flag and the last-error slot.
-/
structure LuaEngine where
  initialized : Bool
  lastError : Option String
deriving DecidableEq, Repr

/-- Mirrors ClearError of the Lua engine. -/
def LuaEngine.ClearError (e : LuaEngine) : LuaEngine :=
  { e with lastError := none }

/--
Mirrors engine.ExecuteString of the Lua engine.  vmExec models
vm.ExecuteString of the opaque virtual machine, which yields only an
error (or none on success).  The Go method fails when uninitialized;
otherwise it forwards the vm error when there is one; on success it
clears the error slot and returns a nil value together with a nil
error: every return statement of the method has nil in the value
position, so the script result is discarded.  The first result
component is the returned value, the second the returned error.
-/
def LuaEngine.ExecuteString (vmExec : String → Option String)
    (e : LuaEngine) (source : String) :
    (Option Int × Option String) × LuaEngine :=
  if !e.initialized then
    ((none, some "lua engine not initialized"),
      { e with lastError := some "lua engine not initialized" })
  else
    match vmExec source with
    | some er => ((none, some er), { e with lastError := some er })
    | none => ((none, none), e.ClearError)

/--
The initialized guard shared by the execution-bearing operations of
both concrete engines (the first statement of ExecuteString in
javascript_engine.go and in lua_engine.go), for engines represented
abstractly in the pools: an uninitialized engine fails with the
not-initialized error before anything runs; run models the engine
executing the source on its interpreter.
-/
def engExecuteString (run : String → Except JErr Int) (e : EngineM)
    (src : String) : Except JErr Int :=
  if e.initialized = false then .error .notInitialized else run src

/--
Mirrors the ExecuteString pass-through wrapper of the auto-growing
pool: acquire, run on the acquired engine, release.  A none result
means no engine-level execution happened because Acquire blocked or
failed.
-/
def AutoGrowEnginePool.ExecuteString (p : AutoGrowEnginePool)
    (factory : Except Unit EngineM) (run : String → Except JErr Int)
    (src : String) : Option (Except JErr Int) × AutoGrowEnginePool :=
  match p.Acquire factory with
  | (.got e, p2) => (some (engExecuteString run e src), (p2.Release (some e)).2)
  | (.fresh e, p2) => (some (engExecuteString run e src), (p2.Release (some e)).2)
  | (.blocked, p2) => (none, p2)
  | (.err _, p2) => (none, p2)

/-- Program counter of the goroutine executing ExecuteString or
CallFunction in the JavaScript engine, run on a script that never
terminates: it acquires execMu inside withRuntime and then stays in
the interpreter. -/
inductive MPC where
  | preLock
  | runScript
deriving DecidableEq, Repr

/-- Program counter of the cancellation watcher goroutine spawned by
ExecuteString and CallFunction in the JavaScript engine: it waits in
the select, and on a fired context it must acquire execMu to read
the runtime before releasing the lock and calling Interrupt. -/
inductive WPC where
  | selectWait
  | acqLock
  | haveLock
  | doInterrupt
  | finished
deriving DecidableEq, Repr

/--
Joint state of the two goroutines of a JavaScript ExecuteString or
CallFunction call whose script never terminates.  execMuOwner models
the execMu mutex (some true: held by the executing goroutine, some
false: held by the watcher).  doneClosed models the done channel,
closed only when the call returns.  interrupted records whether
Interrupt has been called on the runtime.
-/
structure CancelState where
  mpc : MPC
  wpc : WPC
  execMuOwner : Option Bool
  ctxFired : Bool
  doneClosed : Bool
  interrupted : Bool
deriving DecidableEq, Repr

/--
Interleaving semantics of the two goroutines, transcribed from
ExecuteString and CallFunction of javascript_engine.go with a
non-terminating script: the main goroutine locks execMu and enters
the interpreter, from which only an interrupt could make it return
(and none of these steps delivers one while the lock is held); the
watcher wakes when the context fires, then must acquire execMu to
read the runtime, release it, and only then call Interrupt.  The
done channel is closed only when the call returns, which never
happens here, so no step sets doneClosed.
-/
inductive CStep : CancelState → CancelState → Prop where
  | mainAcq (s : CancelState) :
      s.mpc = .preLock → s.execMuOwner = none →
      CStep s { s with mpc := .runScript, execMuOwner := some true }
  | ctxFire (s : CancelState) :
      s.ctxFired = false → CStep s { s with ctxFired := true }
  | watchWake (s : CancelState) :
      s.wpc = .selectWait → s.ctxFired = true →
      CStep s { s with wpc := .acqLock }
  | watchDone (s : CancelState) :
      s.wpc = .selectWait → s.doneClosed = true →
      CStep s { s with wpc := .finished }
  | watchAcq (s : CancelState) :
      s.wpc = .acqLock → s.execMuOwner = none →
      CStep s { s with wpc := .haveLock, execMuOwner := some false }
  | watchRel (s : CancelState) :
      s.wpc = .haveLock →
      CStep s { s with wpc := .doInterrupt, execMuOwner := none }
  | watchInt (s : CancelState) :
      s.wpc = .doInterrupt →
      CStep s { s with wpc := .finished, interrupted := true }

/-- Initial state of the call: nothing locked, context not fired. -/
def cancelInit : CancelState :=
  { mpc := .preLock, wpc := .selectWait, execMuOwner := none
  , ctxFired := false, doneClosed := false, interrupted := false }

/--
The state in which the script is running (execMu held by the
executing goroutine) and the context has fired before the script
completes; reachable from cancelInit.
-/
def cancelMid : CancelState :=
  { mpc := .runScript, wpc := .selectWait, execMuOwner := some true
  , ctxFired := true, doneClosed := false, interrupted := false }

/--
The watcher is locked out: the executing goroutine holds execMu and
sits in the interpreter, the watcher has not got past acquiring the
lock, no interrupt has been delivered and the call has not returned.
-/
def lockedOut (s : CancelState) : Prop :=
  s.mpc = .runScript ∧ s.execMuOwner = some true ∧
    (s.wpc = .selectWait ∨ s.wpc = .acqLock) ∧
    s.doneClosed = false ∧ s.interrupted = false

/-- Concrete pool states used by the counterexample for the pool
invariant claim: the pool right after construction with initial 0
and max 2, after one on-demand Acquire, and after Close. -/
def agC1s0 : AutoGrowEnginePool :=
  { idle := [], borrowed := 0, total := 0, max := 2, closed := false }

/-- The pool agC1s0 after one on-demand Acquire. -/
def agC1s1 : AutoGrowEnginePool :=
  { idle := [], borrowed := 1, total := 1, max := 2, closed := false }

/-- The pool agC1s1 after Close. -/
def agC1s2 : AutoGrowEnginePool :=
  { idle := [], borrowed := 1, total := 1, max := 2, closed := true }

/-- Concrete open pool used by witnesses: one idle engine, one
borrowed, capacity two. -/
def agW : AutoGrowEnginePool :=
  { idle := [newEngineM 0], borrowed := 1, total := 2, max := 2, closed := false }

/-- Concrete saturated open pool used by the acquire-algorithm
witness: empty idle queue with total at max. -/
def agC3 : AutoGrowEnginePool :=
  { idle := [], borrowed := 1, total := 1, max := 1, closed := false }

/-- A factory that always succeeds, producing the uninitialized
engine with the given index; used by concrete witnesses. -/
def wFac : Nat → Except String EngineM := fun j => .ok (newEngineM j)

/-- The engine with the given index after a successful Init; used by
concrete witnesses. -/
def wG : Nat → EngineM := fun j => { id := j, initialized := true }

/-- The empty factory registry. -/
def emptyFactories : Factories := fun _ => none

/-- A concrete manager holding two engines whose Close calls both
fail; used by the CloseAll witness. -/
def wManager : Manager :=
  { engines := [("a", { id := 0, closeErr := some "e1" }),
                ("b", { id := 1, closeErr := some "e2" })]
  , defaultName := "" }

/-- A concrete initialized JavaScript engine with two loaded
programs; used by the ExecuteLoaded witness. -/
def wJs : JsEngine :=
  { initialized := true, programs := [.ok 1, .ok 2], lastError := none }

/-- A concrete initialized Lua engine with a clear error slot. -/
def wLua : LuaEngine := { initialized := true, lastError := none }

/-- A virtual machine that accepts every script; models
vm.ExecuteString succeeding (as gopher-lua does on return 1+1). -/
def wVmOk : String → Option String := fun _ => none

/-- The auto-growing pool produced by construction with initial 1
and max 2. -/
def wAg : AutoGrowEnginePool :=
  { idle := [newEngineM 0], borrowed := 0, total := 1, max := 2, closed := false }

/--
Claim C1 (amended): on an open auto-growing pool the equation idle
plus borrowed equals total, with total at most max, is established
by construction and preserved by every Acquire path and by every
Release path that returns a borrowed engine (including the path
closing the engine and decrementing total when the queue is full),
as well as by a nil Release.  Release on a closed pool closes the
engine without decrementing total, and that path breaks the
equation.
-/
theorem C1_open_pool_invariant (ini mx : Nat) (t : String)
    (s s0 : AutoGrowEnginePool) (f : Except Unit EngineM) (e : EngineM) :
    (NewAutoGrowEnginePool ini mx t = .ok s0 → agInv s0 ∧ s0.closed = false) ∧
    (agInv s → s.closed = false → agInv (s.Acquire f).2) ∧
    (agInv s → s.closed = false → 1 ≤ s.borrowed → agInv (s.Release (some e)).2) ∧
    (agInv s → agInv (s.Release none).2) := by
  refine ⟨?_, ?_, ?_, ?_⟩
  · intro h
    unfold NewAutoGrowEnginePool at h
    split at h
    · exact absurd h (by simp)
    · split at h
      · exact absurd h (by simp)
      · split at h
        · exact absurd h (by simp)
        · cases h
          constructor
          · simp [agInv]
            omega
          · rfl
  · intro hinv hop
    unfold agInv at hinv ⊢
    unfold AutoGrowEnginePool.Acquire
    rw [hop]
    simp only [Bool.false_eq_true, if_false]
    split
    · next e2 rest heq => simp [heq] at hinv ⊢; omega
    · next heq =>
      split
      · split
        · simp [heq] at hinv ⊢; omega
        · exact hinv
      · exact hinv
  · intro hinv hop hb
    unfold agInv at hinv ⊢
    unfold AutoGrowEnginePool.Release
    rw [hop]
    simp only [Bool.false_eq_true, if_false]
    split
    · simp; omega
    · next hfull =>
      have : ¬ s.idle.length < s.max := hfull
      split <;> simp <;> omega
  · intro hinv
    exact hinv

/--
Claim C1 counterexample: a reachable run (construct with initial 0
and max 2, acquire one engine on demand, close the pool) reaches a
closed state that satisfies the equation, and Release of the
borrowed engine on the closed pool closes the engine but leaves
total unchanged, so idle plus borrowed no longer equals total.
-/
theorem C1_counterexample :
    NewAutoGrowEnginePool 0 2 "lua" = .ok agC1s0 ∧
    agC1s0.Acquire (.ok (newEngineM 0)) = (.fresh (newEngineM 0), agC1s1) ∧
    agC1s1.Close = (agC1s2, []) ∧
    agInv agC1s2 ∧
    (agC1s2.Release (some (newEngineM 0))).1 = .closedEngine ∧
    ¬ agInv (agC1s2.Release (some (newEngineM 0))).2 :=
  ⟨rfl, rfl, rfl, by decide, rfl, by decide⟩

/-- Witness for the amended pool-invariant theorem at a concrete
open pool with one idle and one borrowed engine. -/
theorem C1_witness :
    agInv agW ∧ agW.closed = false ∧
      agInv (agW.Acquire (.ok (newEngineM 1))).2 :=
  ⟨by decide, rfl,
    (C1_open_pool_invariant 0 2 "x" agW agW (.ok (newEngineM 1))
      (newEngineM 1)).2.1 (by decide) rfl⟩

/--
Claim C2: after Close has completed on either pool flavor the pool
is closed and stays closed, every subsequent Acquire fails with the
pool-closed error and returns no engine, and every subsequent
Release of a non-nil engine closes that engine instead of requeuing
it (the idle queue is unchanged, so nothing is enqueued twice or
leaked into the queue).
-/
theorem C2_after_close (p : EnginePool) (q : AutoGrowEnginePool)
    (e : EngineM) (f : Except Unit EngineM) (x : Option EngineM) :
    ((p.Close).1.closed = true) ∧
    ((p.Close).1.Acquire = (.perr .poolClosed, (p.Close).1)) ∧
    ((p.Close).1.Release (some e) = (.closedEngine, (p.Close).1)) ∧
    (((p.Close).1.Release x).2.closed = true) ∧
    ((q.Close).1.closed = true) ∧
    ((q.Close).1.Acquire f = (.err .poolClosed, (q.Close).1)) ∧
    (((q.Close).1.Release (some e)).1 = .closedEngine) ∧
    (((q.Close).1.Release (some e)).2.idle = (q.Close).1.idle) ∧
    (((q.Close).1.Release x).2.closed = true) := by
  have hp : (p.Close).1.closed = true := by
    unfold EnginePool.Close
    split
    · next h => exact h
    · rfl
  have hq : (q.Close).1.closed = true := by
    unfold AutoGrowEnginePool.Close
    split
    · next h => exact h
    · rfl
  refine ⟨hp, ?_, ?_, ?_, hq, ?_, ?_, ?_, ?_⟩
  · simp [EnginePool.Acquire, hp]
  · simp [EnginePool.Release, hp]
  · cases x with
    | none => simpa [EnginePool.Release] using hp
    | some y => simp [EnginePool.Release, hp]
  · simp [AutoGrowEnginePool.Acquire, hq]
  · simp [AutoGrowEnginePool.Release, hq]
  · simp [AutoGrowEnginePool.Release, hq]
  · cases x with
    | none => simpa [AutoGrowEnginePool.Release] using hq
    | some y => simp [AutoGrowEnginePool.Release, hq]

/--
Claim C3: on an open auto-growing pool, Acquire returns the head of
the idle queue when one is present; with an empty queue and total
strictly below max it increments total and returns the freshly
created engine without touching the queue; with an empty queue and
total at max it parks on the blocking receive from the idle queue.
-/
theorem C3_acquire_algorithm (p : AutoGrowEnginePool)
    (f : Except Unit EngineM) (hopen : p.closed = false) :
    (∀ e rest, p.idle = e :: rest →
        p.Acquire f = (.got e, { p with idle := rest, borrowed := p.borrowed + 1 })) ∧
    (∀ e, p.idle = [] → p.total < p.max → f = .ok e →
        p.Acquire f = (.fresh e,
          { p with total := p.total + 1, borrowed := p.borrowed + 1 })) ∧
    (p.idle = [] → p.max ≤ p.total → p.Acquire f = (.blocked, p)) := by
  refine ⟨?_, ?_, ?_⟩
  · intro e rest heq
    simp [AutoGrowEnginePool.Acquire, hopen, heq]
  · intro e heq hlt hf
    simp [AutoGrowEnginePool.Acquire, hopen, heq, hlt, hf]
  · intro heq hge
    simp [AutoGrowEnginePool.Acquire, hopen, heq, Nat.not_lt.mpr hge]

/-- Witness for the acquire-algorithm theorem: a saturated open pool
parks the caller. -/
theorem C3_witness :
    agC3.closed = false ∧ agC3.idle = [] ∧ agC3.max ≤ agC3.total ∧
      agC3.Acquire (.ok (newEngineM 5)) = (.blocked, agC3) :=
  ⟨rfl, rfl, by decide,
    (C3_acquire_algorithm agC3 (.ok (newEngineM 5)) rfl).2.2 rfl (by decide)⟩

/-- When every factory call and every Init call of the next n steps
succeeds, the creation loop returns all n initialized engines
appended in creation order and closes nothing. -/
theorem buildEngines_ok (factory : Nat → Except String EngineM)
    (initE : EngineM → Except String EngineM) (fe g : Nat → EngineM) :
    ∀ (n i : Nat) (created : List EngineM),
    (∀ j, j < n → factory (i + j) = .ok (fe (i + j))) →
    (∀ j, j < n → initE (fe (i + j)) = .ok (g (i + j))) →
    buildEngines factory initE n i created =
      { engines := .ok (created ++ (List.range' i n).map g), closedDuring := [] } := by
  intro n
  induction n with
  | zero => intro i created h1 h2; simp [buildEngines]
  | succ n ih =>
    intro i created h1 h2
    have hf : factory i = .ok (fe i) := by simpa using h1 0 (Nat.succ_pos n)
    have hi : initE (fe i) = .ok (g i) := by simpa using h2 0 (Nat.succ_pos n)
    simp only [buildEngines, hf, hi]
    rw [ih (i + 1) (created ++ [g i]) ?_ ?_]
    · simp [List.range'_succ]
    · intro j hj
      have h := h1 (j + 1) (by omega)
      rw [show i + (j + 1) = i + 1 + j by omega] at h
      exact h
    · intro j hj
      have h := h2 (j + 1) (by omega)
      rw [show i + (j + 1) = i + 1 + j by omega] at h
      exact h

/-- When the first m steps succeed and the factory call of step m
fails, the creation loop fails and closes exactly the m engines
created so far, in creation order. -/
theorem buildEngines_factoryFail (factory : Nat → Except String EngineM)
    (initE : EngineM → Except String EngineM) (fe g : Nat → EngineM)
    (msg : String) :
    ∀ (m n i : Nat) (created : List EngineM),
    m < n →
    (∀ j, j < m → factory (i + j) = .ok (fe (i + j))) →
    (∀ j, j < m → initE (fe (i + j)) = .ok (g (i + j))) →
    factory (i + m) = .error msg →
    buildEngines factory initE n i created =
      { engines := .error msg
      , closedDuring := created ++ (List.range' i m).map g } := by
  intro m
  induction m with
  | zero =>
    intro n i created hmn h1 h2 hf
    obtain ⟨k, rfl⟩ : ∃ k, n = k + 1 := ⟨n - 1, by omega⟩
    rw [show i + 0 = i by omega] at hf
    simp [buildEngines, hf]
  | succ m ih =>
    intro n i created hmn h1 h2 hf
    obtain ⟨k, rfl⟩ : ∃ k, n = k + 1 := ⟨n - 1, by omega⟩
    have hf0 : factory i = .ok (fe i) := by simpa using h1 0 (Nat.succ_pos m)
    have hi0 : initE (fe i) = .ok (g i) := by simpa using h2 0 (Nat.succ_pos m)
    simp only [buildEngines, hf0, hi0]
    rw [ih k (i + 1) (created ++ [g i]) (by omega) ?_ ?_ ?_]
    · simp [List.range'_succ]
    · intro j hj
      have h := h1 (j + 1) (by omega)
      rw [show i + (j + 1) = i + 1 + j by omega] at h
      exact h
    · intro j hj
      have h := h2 (j + 1) (by omega)
      rw [show i + (j + 1) = i + 1 + j by omega] at h
      exact h
    · rw [show i + 1 + m = i + (m + 1) by omega]
      exact hf

/-- When the first m steps succeed, the factory call of step m
succeeds but its Init fails, the creation loop fails and closes the
partially initialized engine first, then the m engines created so
far in creation order. -/
theorem buildEngines_initFail (factory : Nat → Except String EngineM)
    (initE : EngineM → Except String EngineM) (fe g : Nat → EngineM)
    (msg : String) :
    ∀ (m n i : Nat) (created : List EngineM),
    m < n →
    (∀ j, j < m → factory (i + j) = .ok (fe (i + j))) →
    (∀ j, j < m → initE (fe (i + j)) = .ok (g (i + j))) →
    factory (i + m) = .ok (fe (i + m)) →
    initE (fe (i + m)) = .error msg →
    buildEngines factory initE n i created =
      { engines := .error msg
      , closedDuring := fe (i + m) :: (created ++ (List.range' i m).map g) } := by
  intro m
  induction m with
  | zero =>
    intro n i created hmn h1 h2 hf hx
    obtain ⟨k, rfl⟩ : ∃ k, n = k + 1 := ⟨n - 1, by omega⟩
    rw [show i + 0 = i by omega] at hf hx
    simp [buildEngines, hf, hx]
  | succ m ih =>
    intro n i created hmn h1 h2 hf hx
    obtain ⟨k, rfl⟩ : ∃ k, n = k + 1 := ⟨n - 1, by omega⟩
    have hf0 : factory i = .ok (fe i) := by simpa using h1 0 (Nat.succ_pos m)
    have hi0 : initE (fe i) = .ok (g i) := by simpa using h2 0 (Nat.succ_pos m)
    simp only [buildEngines, hf0, hi0]
    rw [ih k (i + 1) (created ++ [g i]) (by omega) ?_ ?_ ?_ ?_]
    · rw [show i + 1 + m = i + (m + 1) by omega]
      simp [List.range'_succ]
    · intro j hj
      have h := h1 (j + 1) (by omega)
      rw [show i + (j + 1) = i + 1 + j by omega] at h
      exact h
    · intro j hj
      have h := h2 (j + 1) (by omega)
      rw [show i + (j + 1) = i + 1 + j by omega] at h
      exact h
    · rw [show i + 1 + m = i + (m + 1) by omega]
      exact hf
    · rw [show i + 1 + m = i + (m + 1) by omega]
      exact hx

/--
Claim C4: with size at least 1, NewEnginePool creates exactly size
engines via the factory and calls Init on each, returning the fully
populated pool with nothing closed; if the factory call of step k
fails, construction returns the error with no pool and the k engines
created before the failure are closed; if Init of step k fails, the
partially initialized engine is closed first and then the k engines
created before it; in both failure cases no pool is returned.
-/
theorem C4_pool_construction (size : Nat)
    (factory : Nat → Except String EngineM)
    (initE : EngineM → Except String EngineM)
    (fe g : Nat → EngineM) (k : Nat) (msg : String) :
    (1 ≤ size →
      (∀ j, j < size → factory j = .ok (fe j)) →
      (∀ j, j < size → initE (fe j) = .ok (g j)) →
      NewEnginePool size factory initE =
        (.ok { pool := (List.range size).map g, size := size, closed := false }, [])) ∧
    (k < size →
      (∀ j, j < k → factory j = .ok (fe j)) →
      (∀ j, j < k → initE (fe j) = .ok (g j)) →
      factory k = .error msg →
      NewEnginePool size factory initE = (.error msg, (List.range k).map g)) ∧
    (k < size →
      (∀ j, j < k → factory j = .ok (fe j)) →
      (∀ j, j < k → initE (fe j) = .ok (g j)) →
      factory k = .ok (fe k) →
      initE (fe k) = .error msg →
      NewEnginePool size factory initE =
        (.error msg, fe k :: (List.range k).map g)) := by
  refine ⟨?_, ?_, ?_⟩
  · intro hsz h1 h2
    unfold NewEnginePool
    rw [if_neg (by omega)]
    rw [buildEngines_ok factory initE fe g size 0 []
      (fun j hj => by simpa using h1 j hj)
      (fun j hj => by simpa using h2 j hj)]
    simp [List.range_eq_range']
  · intro hk h1 h2 hf
    unfold NewEnginePool
    rw [if_neg (by omega)]
    rw [buildEngines_factoryFail factory initE fe g msg k size 0 [] hk
      (fun j hj => by simpa using h1 j hj)
      (fun j hj => by simpa using h2 j hj)
      (by simpa using hf)]
    simp [List.range_eq_range']
  · intro hk h1 h2 hf hx
    unfold NewEnginePool
    rw [if_neg (by omega)]
    rw [buildEngines_initFail factory initE fe g msg k size 0 [] hk
      (fun j hj => by simpa using h1 j hj)
      (fun j hj => by simpa using h2 j hj)
      (by simpa using hf) (by simpa using hx)]
    simp [List.range_eq_range']

/-- Witness for the construction theorem: a pool of two engines is
built from a never-failing factory and Init, fully initialized. -/
theorem C4_witness :
    (1 : Nat) ≤ 2 ∧
      NewEnginePool 2 wFac engInit =
        (.ok { pool := (List.range 2).map wG, size := 2, closed := false }, []) :=
  ⟨by omega,
    (C4_pool_construction 2 wFac engInit newEngineM wG 0 "x").1 (by omega)
      (fun j _ => rfl) (fun j _ => rfl)⟩

/--
Claim C8: in the factory registry, registering an unbound type
identifier succeeds and binds it; a second Register on the same
identifier fails with the already-registered error and leaves the
registry, and in particular the first binding, in place; Unregister
returns true exactly when the identifier is bound and removes the
binding; after Unregister a new Register succeeds and installs the
new constructor.
-/
theorem C8_registry_roundtrip (m : Factories) (t : String) (f f2 : Nat)
    (h : m t = none) :
    ((Register m t f).1 = none) ∧
    (GetFactory (Register m t f).2 t = some f) ∧
    ((Register (Register m t f).2 t f2).1.isSome = true) ∧
    ((Register (Register m t f).2 t f2).2 = (Register m t f).2) ∧
    (GetFactory (Register (Register m t f).2 t f2).2 t = some f) ∧
    ((Unregister (Register m t f).2 t).1 = true) ∧
    (GetFactory (Unregister (Register m t f).2 t).2 t = none) ∧
    ((Register (Unregister (Register m t f).2 t).2 t f2).1 = none) ∧
    (GetFactory (Register (Unregister (Register m t f).2 t).2 t f2).2 t = some f2) ∧
    (∀ m2 : Factories, (Unregister m2 t).1 = (m2 t).isSome) := by
  refine ⟨?_, ?_, ?_, ?_, ?_, ?_, ?_, ?_, ?_, ?_⟩
  · simp [Register, h]
  · simp [Register, GetFactory, h]
  · simp [Register, h]
  · simp [Register, h]
  · simp [Register, GetFactory, h]
  · simp [Register, Unregister, h]
  · simp [Register, Unregister, GetFactory, h]
  · simp [Register, Unregister, h]
  · simp [Register, Unregister, GetFactory, h]
  · intro m2
    cases hm : m2 t <;> simp [Unregister, hm]

/-- Witness for the registry theorem on the empty registry and a
concrete identifier. -/
theorem C8_witness :
    emptyFactories "x" = none ∧
      GetFactory (Register emptyFactories "x" 0).2 "x" = some 0 :=
  ⟨rfl, (C8_registry_roundtrip emptyFactories "x" 0 1 rfl).2.1⟩

/-- The cleanup loop calls Close on every engine of its list, in
order, whatever the individual outcomes. -/
theorem closeSeq_fst (l : List MEngine) : ∀ last, (closeSeq last l).1 = l := by
  induction l with
  | nil => intro last; rfl
  | cons e rest ih => intro last; simp [closeSeq, ih]

/-- When every Close of the list succeeds the accumulator is
returned unchanged. -/
theorem closeSeq_none (l : List MEngine) :
    ∀ last, (∀ x ∈ l, x.closeErr = none) → (closeSeq last l).2 = last := by
  induction l with
  | nil => intro last _; rfl
  | cons e rest ih =>
    intro last h
    have he : e.closeErr = none := h e (by simp)
    simp only [closeSeq, he]
    exact ih last (fun x hx => h x (by simp [hx]))

/-- The lastErr accumulator threads left to right through an
appended list. -/
theorem closeSeq_append (l1 l2 : List MEngine) :
    ∀ last, (closeSeq last (l1 ++ l2)).2 = (closeSeq (closeSeq last l1).2 l2).2 := by
  induction l1 with
  | nil => intro last; rfl
  | cons e rest ih => intro last; simp [closeSeq, ih]

/--
Claim C9: CloseAll clears the registry, calls Close on every engine
of the snapshot in order even when earlier Close calls fail, returns
none when every Close succeeds and otherwise exactly the error of
the last failing Close; an immediately repeated CloseAll closes
nothing and returns none because the registry was cleared first.
-/
theorem C9_closeAll (m : Manager) (pre post : List MEngine)
    (e : MEngine) (er : String) :
    ((m.CloseAll).1.engines = []) ∧
    ((m.CloseAll).2.1 = m.engines.map Prod.snd) ∧
    ((∀ x ∈ m.engines.map Prod.snd, x.closeErr = none) →
        (m.CloseAll).2.2 = none) ∧
    (m.engines.map Prod.snd = pre ++ e :: post → e.closeErr = some er →
      (∀ x ∈ post, x.closeErr = none) → (m.CloseAll).2.2 = some er) ∧
    ((m.CloseAll).1.CloseAll = ((m.CloseAll).1, [], none)) := by
  refine ⟨rfl, ?_, ?_, ?_, ?_⟩
  · exact closeSeq_fst _ none
  · intro h
    exact closeSeq_none _ none h
  · intro hsnap he hpost
    unfold Manager.CloseAll
    simp only
    rw [hsnap, closeSeq_append]
    simp only [closeSeq, he]
    exact closeSeq_none post _ hpost
  · rfl

/-- Witness for the CloseAll theorem: on a manager whose two engines
both fail to close, only the second (last) error is returned. -/
theorem C9_witness :
    wManager.engines.map Prod.snd =
        [{ id := 0, closeErr := some "e1" }] ++
          { id := 1, closeErr := some "e2" } :: [] ∧
      (wManager.CloseAll).2.2 = some "e2" :=
  ⟨rfl,
    (C9_closeAll wManager [{ id := 0, closeErr := some "e1" }] []
        { id := 1, closeErr := some "e2" } "e2").2.2.2.1 rfl rfl (by simp)⟩

/-- Running a list of all-succeeding programs yields all their
values in order and no error. -/
theorem runProgsTrace_allOk (vs : List Int) :
    runProgsTrace (vs.map Except.ok) = (vs, none) := by
  induction vs with
  | nil => rfl
  | cons v rest ih => simp [runProgsTrace, ih]

/-- Running a list whose first failure sits after a succeeding
prefix yields exactly the values of the prefix and the error of the
failing program; the programs after the failure do not contribute. -/
theorem runProgsTrace_firstFail (pre : List Int) (er : JErr)
    (post : List (Except JErr Int)) :
    runProgsTrace (pre.map Except.ok ++ .error er :: post) = (pre, some er) := by
  induction pre with
  | nil => rfl
  | cons v rest ih => simp [runProgsTrace, ih]

/--
Claim C5: on an initialized JavaScript engine, ExecuteLoaded fails
with the no-program-loaded error when the loaded list is empty;
with a non-empty all-succeeding loaded list it returns the programs'
results in load order (clearing the error slot); when the program
after a succeeding prefix fails it returns that error and the run
trace contains exactly the prefix results, independently of the
programs loaded after the failing one; and LoadString appends the
compiled program at the end of the loaded list, so the list is in
load order.
-/
theorem C5_executeLoaded (e : JsEngine) (h : e.initialized = true) :
    (e.programs = [] → (e.ExecuteLoaded).1 = .error .noProgramLoaded) ∧
    (∀ vs, vs ≠ [] → e.programs = vs.map Except.ok →
        e.ExecuteLoaded = (.ok vs, e.ClearError)) ∧
    (∀ pre er post, e.programs = pre.map Except.ok ++ .error er :: post →
        (e.ExecuteLoaded).1 = .error er ∧
          runProgsTrace e.programs = (pre, some er)) ∧
    (∀ prog, (e.LoadString (.ok prog)).2.programs = e.programs ++ [prog]) := by
  refine ⟨?_, ?_, ?_, ?_⟩
  · intro hp
    simp [JsEngine.ExecuteLoaded, h, hp]
  · intro vs hne hp
    obtain ⟨v, tl, rfl⟩ := List.exists_cons_of_ne_nil hne
    have hr := runProgsTrace_allOk (v :: tl)
    rw [JsEngine.ExecuteLoaded, hp, hr]
    simp [h]
  · intro pre er post hp
    have hr := runProgsTrace_firstFail pre er post
    rw [JsEngine.ExecuteLoaded, hp, hr]
    cases pre <;> simp [h]
  · intro prog
    simp [JsEngine.LoadString, h]

/-- Witness for the ExecuteLoaded theorem: two loaded programs whose
runs succeed produce both results in load order. -/
theorem C5_witness :
    wJs.initialized = true ∧
      wJs.ExecuteLoaded = (.ok [1, 2], wJs.ClearError) :=
  ⟨rfl, (C5_executeLoaded wJs rfl).2.1 [1, 2] (by simp) rfl⟩

/--
Claim C7 counterexample: on an initialized Lua engine whose virtual
machine accepts the script, ExecuteString with return 1+1 succeeds
(nil error) but its result value is nil, not 2: every return
statement of the Lua ExecuteString has nil in the value position.
-/
theorem C7_counterexample :
    (LuaEngine.ExecuteString wVmOk wLua "return 1+1").1.2 = none ∧
    (LuaEngine.ExecuteString wVmOk wLua "return 1+1").1.1 = none ∧
    ¬ (LuaEngine.ExecuteString wVmOk wLua "return 1+1").1.1 = some 2 :=
  ⟨rfl, rfl, by decide⟩

/--
Claim C7 (amended): ExecuteString on an initialized Lua engine whose
virtual machine accepts the source succeeds, clearing the error
slot, but returns nil as its value; indeed the value component of
every Lua ExecuteString call is nil.
-/
theorem C7_lua_executeString (vmExec : String → Option String)
    (e : LuaEngine) (src : String) (hinit : e.initialized = true)
    (hvm : vmExec src = none) :
    LuaEngine.ExecuteString vmExec e src = ((none, none), e.ClearError) ∧
    (∀ (vm2 : String → Option String) (e2 : LuaEngine) (src2 : String),
        (LuaEngine.ExecuteString vm2 e2 src2).1.1 = (none : Option Int)) := by
  constructor
  · simp [LuaEngine.ExecuteString, hinit, hvm]
  · intro vm2 e2 src2
    unfold LuaEngine.ExecuteString
    split
    · rfl
    · split <;> rfl

/-- Witness for the amended Lua ExecuteString theorem. -/
theorem C7_witness :
    wLua.initialized = true ∧ wVmOk "return 1+1" = none ∧
      LuaEngine.ExecuteString wVmOk wLua "return 1+1" =
        ((none, none), wLua.ClearError) :=
  ⟨rfl, rfl, (C7_lua_executeString wVmOk wLua "return 1+1" rfl rfl).1⟩

/--
Claim C10: a freshly constructed auto-growing pool holds only
uninitialized engines in its idle queue, every engine Acquire hands
out (taken from the queue or created on demand by the factory, which
never calls Init) is uninitialized, and the ExecuteString
pass-through on the fresh pool fails with the not-initialized error.
-/
theorem C10_autogrow_uninitialized (ini mx k : Nat) (t : String)
    (p : AutoGrowEnginePool) (run : String → Except JErr Int) (src : String)
    (h : NewAutoGrowEnginePool ini mx t = .ok p) :
    (∀ e ∈ p.idle, e.initialized = false) ∧
    (∀ e p2, p.Acquire (.ok (newEngineM k)) = (.got e, p2) →
        e.initialized = false) ∧
    (∀ e p2, p.Acquire (.ok (newEngineM k)) = (.fresh e, p2) →
        e.initialized = false) ∧
    ((p.ExecuteString (.ok (newEngineM k)) run src).1 =
        some (.error .notInitialized)) := by
  unfold NewAutoGrowEnginePool at h
  split at h
  · exact absurd h (by simp)
  next h1 =>
    split at h
    · exact absurd h (by simp)
    next h2 =>
      split at h
      · exact absurd h (by simp)
      next h3 =>
        injection h with h4
        subst h4
        have hpos : 0 < mx := by omega
        refine ⟨?_, ?_, ?_, ?_⟩
        · intro e he
          obtain ⟨j, hj, rfl⟩ := List.mem_map.mp he
          rfl
        · intro e p2 heq
          cases ini with
          | zero => simp [AutoGrowEnginePool.Acquire, hpos] at heq
          | succ n =>
            rw [AutoGrowEnginePool.Acquire] at heq
            simp only [List.range_succ_eq_map, List.map_cons] at heq
            simp at heq
            obtain ⟨h5, -⟩ := heq
            subst h5
            rfl
        · intro e p2 heq
          cases ini with
          | zero =>
            simp [AutoGrowEnginePool.Acquire, hpos] at heq
            obtain ⟨h5, -⟩ := heq
            subst h5
            rfl
          | succ n =>
            rw [AutoGrowEnginePool.Acquire] at heq
            simp only [List.range_succ_eq_map, List.map_cons] at heq
            simp at heq
        · cases ini with
          | zero =>
            simp [AutoGrowEnginePool.ExecuteString, AutoGrowEnginePool.Acquire,
              hpos, engExecuteString, newEngineM]
          | succ n =>
            rw [AutoGrowEnginePool.ExecuteString]
            simp only [AutoGrowEnginePool.Acquire, List.range_succ_eq_map,
              List.map_cons]
            simp [engExecuteString, newEngineM]

/-- Witness for the uninitialized-pool theorem: the pool built with
initial 1 and max 2 fails ExecuteString with the not-initialized
error. -/
theorem C10_witness :
    NewAutoGrowEnginePool 1 2 "lua" = .ok wAg ∧
      (wAg.ExecuteString (.ok (newEngineM 1)) (fun _ => .ok 0) "x").1 =
        some (.error .notInitialized) :=
  ⟨rfl,
    (C10_autogrow_uninitialized 1 2 1 "lua" wAg (fun _ => .ok 0) "x" rfl).2.2.2⟩

/-- Every step of the two-goroutine cancellation system keeps the
watcher locked out while the executing goroutine holds execMu inside
a non-terminating script. -/
theorem lockedOut_preserved {a b : CancelState} (h : CStep a b)
    (ha : lockedOut a) : lockedOut b := by
  obtain ⟨h1, h2, h3, h4, h5⟩ := ha
  cases h with
  | mainAcq hm hl =>
    rw [h1] at hm
    exact MPC.noConfusion hm
  | ctxFire hc =>
    exact ⟨h1, h2, h3, h4, h5⟩
  | watchWake hw hc =>
    exact ⟨h1, h2, Or.inr rfl, h4, h5⟩
  | watchDone hw hd =>
    rw [h4] at hd
    exact Bool.noConfusion hd
  | watchAcq hw hl =>
    rw [h2] at hl
    exact Option.noConfusion hl
  | watchRel hw =>
    rcases h3 with h3 | h3 <;> rw [h3] at hw <;> exact WPC.noConfusion hw
  | watchInt hw =>
    rcases h3 with h3 | h3 <;> rw [h3] at hw <;> exact WPC.noConfusion hw

/--
Claim C6, exhibited code defect: in the JavaScript engine the state
in which a non-terminating script runs under execMu and the context
has already fired is reachable, and from it no interleaving ever
delivers the interrupt, returns from the call, or closes the done
channel: the watcher goroutine must acquire execMu to read the
runtime, and withRuntime holds execMu for the entire script run.
The call therefore neither returns the cancellation error nor
interrupts the interpreter, contradicting the claim.
-/
theorem C6_js_watcher_lockout :
    Relation.ReflTransGen CStep cancelInit cancelMid ∧
    ∀ s, Relation.ReflTransGen CStep cancelMid s →
      s.interrupted = false ∧ s.mpc = .runScript ∧ s.doneClosed = false := by
  constructor
  · have st1 := CStep.mainAcq cancelInit rfl rfl
    have st2 := CStep.ctxFire
      { cancelInit with mpc := .runScript, execMuOwner := some true } rfl
    exact Relation.ReflTransGen.head st1 (Relation.ReflTransGen.single st2)
  · intro s hs
    have key : lockedOut s := by
      induction hs with
      | refl => exact ⟨rfl, rfl, Or.inl rfl, rfl, rfl⟩
      | tail hab hbc ih => exact lockedOut_preserved hbc ih
    obtain ⟨k1, k2, k3, k4, k5⟩ := key
    exact ⟨k5, k1, k4⟩

/-- Witness for the watcher-lockout theorem at the reachable state
itself. -/
theorem C6_witness :
    Relation.ReflTransGen CStep cancelMid cancelMid ∧
      (cancelMid.interrupted = false ∧ cancelMid.mpc = .runScript ∧
        cancelMid.doneClosed = false) :=
  ⟨Relation.ReflTransGen.refl,
    (C6_js_watcher_lockout).2 cancelMid Relation.ReflTransGen.refl⟩

end GoScripts
